import Mathlib

/-!
Verification of the server-state reconciliation and telemetry engine of the
Nexora dashboard against its specification.

The development shallowly embeds the relevant TypeScript source:

* `src/server/storage.ts` (`MemStorage`): the in-memory registry of `Server`
  records and per-server `ServerStat` histories, with the operations
  `getServers`, `getServerById`, `getServerByPterodactylId`, `createServer`,
  `updateServerStatus`, `getServerStats`, `createServerStat` and
  `syncPterodactylServers`.
* the Pterodactyl route layer (`setupPterodactyl`): the helper
  `pterodactylClientRequest` and the five user-facing routes
  (`GET /api/servers`, `GET /api/servers/:id`, `GET /api/server-stats`,
  `POST /api/servers/:id/power`, `POST /api/servers/:id/command`).

Modelling conventions:

* JavaScript `Map`s become insertion-ordered association lists
  (`List (κ × α)`); `Map.get` / `Map.set` become `jsGet` / `jsSet`, which
  replace an existing entry in place (preserving insertion order) or append.
* `Date` timestamps become `Nat` values passed explicitly (`now`).
* JavaScript numbers become `Int` (ids, ports and counters, which are small
  non-negative integers in the source, become `Nat`).  No claim depends on
  numeric arithmetic beyond equality and counting; the float divisions in the
  stats route are modelled as `Int` division.
* Nullable TypeScript fields become `Option`; JavaScript string truthiness
  (`s || d`) is modelled by comparing with `""` (and `none` for nullables).
* `async` functions are pure state transformers; a thrown exception becomes
  an `Option`/`Except` error value.
* The outbound HTTP layer is abstracted by a `NetOutcome` oracle passed to
  each route; every issued request is logged in an `ApiRequest` trace so
  that "no HTTP request is issued" is a provable statement.
-/

set_option maxHeartbeats 1000000

namespace Nexora

/-! ## JavaScript `Map` as an insertion-ordered association list -/

/-- `Map.get k`: first entry with the given key (keys are unique in a real
`Map`, so "first" is exact). -/
def jsGet {κ α : Type} [DecidableEq κ] : List (κ × α) → κ → Option α
  | [], _ => none
  | p :: rest, k => if p.1 = k then some p.2 else jsGet rest k

/-- `Map.set k v`: replace the entry for `k` in place (preserving insertion
order) or append a fresh entry at the end, exactly as a JavaScript `Map`. -/
def jsSet {κ α : Type} [DecidableEq κ] : List (κ × α) → κ → α → List (κ × α)
  | [], k, v => [(k, v)]
  | p :: rest, k, v => if p.1 = k then (k, v) :: rest else p :: jsSet rest k v

/-- `Array.from(map.values())`. -/
def jsValues {κ α : Type} (m : List (κ × α)) : List α := m.map (fun p => p.2)

/-- The keys of a map, in insertion order. -/
def jsKeys {κ α : Type} (m : List (κ × α)) : List κ := m.map (fun p => p.1)

/-! ## Data model (`shared/schema.ts`, Pterodactyl API types) -/

/-- A row of the `servers` table (`shared/schema.ts`). -/
structure Server where
  id : Nat
  userId : Nat
  pterodactylId : String
  name : String
  description : Option String
  node : Option String
  gameType : Option String
  status : String
  ipAddress : String
  port : Nat
  memoryLimit : Int
  diskLimit : Int
  cpuLimit : Int
  createdAt : Nat
deriving DecidableEq

/-- A row of the `server_stats` table (`shared/schema.ts`). -/
structure ServerStat where
  id : Nat
  serverId : Nat
  timestamp : Nat
  cpuUsage : Int
  ramUsage : Int
  diskUsage : Int
  state : String
deriving DecidableEq

/-- `ServerUsage` (Pterodactyl API types file). -/
structure ServerUsage where
  cpu : Int
  memory : Int
  disk : Int
  state : String
deriving DecidableEq

/-- The fields of `PterodactylServer.attributes.allocation` read by the core
(the remaining fields of the TypeScript interface are never consulted). -/
structure PterodactylAllocation where
  ip : String
  port : Nat
deriving DecidableEq

/-- The fields of `PterodactylServer.attributes.limits` read by the core. -/
structure PterodactylLimits where
  memory : Int
  disk : Int
  cpu : Int
deriving DecidableEq

/-- The fields of `PterodactylServer.attributes` read by the core
(`description` is `string | null` in the TypeScript interface). -/
structure PterodactylAttributes where
  identifier : String
  name : String
  description : Option String
  status : String
  node : String
  nest : Nat
  egg : Nat
  allocation : PterodactylAllocation
  limits : PterodactylLimits
deriving DecidableEq

/-- One reported server, as the orchestrator returns it. -/
structure PterodactylServer where
  attributes : PterodactylAttributes
deriving DecidableEq

/-- `InsertServer`: a `servers` row without `id`/`createdAt`, as built by
`syncPterodactylServers` before calling `createServer`. -/
structure InsertServer where
  userId : Nat
  pterodactylId : String
  name : String
  description : String
  node : String
  gameType : String
  status : String
  ipAddress : String
  port : Nat
  memoryLimit : Int
  diskLimit : Int
  cpuLimit : Int
deriving DecidableEq

/-- The slice of `MemStorage` state the core touches: the `serversData` and
`serverStatsData` maps and their `currentId` counters. -/
structure Storage where
  serversData : List (Nat × Server)
  serverStatsData : List (Nat × List ServerStat)
  serversNextId : Nat
  serverStatsNextId : Nat
deriving DecidableEq

/-! ## Storage operations (`src/server/storage.ts`) -/

/-- `getServers(userId)`. -/
def getServers (st : Storage) (userId : Nat) : List Server :=
  (jsValues st.serversData).filter (fun server => server.userId = userId)

/-- `getServerById(id)`. -/
def getServerById (st : Storage) (id : Nat) : Option Server :=
  jsGet st.serversData id

/-- `getServerByPterodactylId(pterodactylId)` (`Array.find` over values). -/
def getServerByPterodactylId (st : Storage) (pterodactylId : String) : Option Server :=
  (jsValues st.serversData).find? (fun server => server.pterodactylId = pterodactylId)

/-- JavaScript `s || dflt` for strings (`""` is the only falsy string). -/
def strOr (s dflt : String) : String := if s = "" then dflt else s

/-- JavaScript `s || null` for strings, landing in a nullable column. -/
def strOrNull (s : String) : Option String := if s = "" then none else some s

/-- JavaScript truthiness of a `string | null` value. -/
def truthyStr : Option String → Bool
  | none => false
  | some s => s ≠ ""

/-- `createServer(server)`: assign the next id, apply the field defaults,
store the record and initialise its (empty) stats history. -/
def createServer (st : Storage) (server : InsertServer) (now : Nat) : Server × Storage :=
  let id := st.serversNextId
  let newServer : Server :=
    { id := id
      userId := server.userId
      pterodactylId := server.pterodactylId
      name := server.name
      description := strOrNull server.description
      node := strOrNull server.node
      gameType := strOrNull server.gameType
      status := strOr server.status "installing"
      ipAddress := server.ipAddress
      port := server.port
      memoryLimit := server.memoryLimit
      diskLimit := server.diskLimit
      cpuLimit := server.cpuLimit
      createdAt := now }
  (newServer,
    { st with
      serversData := jsSet st.serversData id newServer
      serverStatsData := jsSet st.serverStatsData id []
      serversNextId := st.serversNextId + 1 })

/-- `updateServerStatus(id, status)`; `none` models the thrown
`Server with ID ... not found` error. -/
def updateServerStatus (st : Storage) (id : Nat) (status : String) :
    Option (Server × Storage) :=
  match getServerById st id with
  | none => none
  | some server =>
    let updated := { server with status := status }
    some (updated, { st with serversData := jsSet st.serversData id updated })

/-- `getServerStats(serverId)`. -/
def getServerStats (st : Storage) (serverId : Nat) : List ServerStat :=
  (jsGet st.serverStatsData serverId).getD []

/-- The `ServerStat` object literal built by `createServerStat`. -/
def mkStat (id serverId now : Nat) (usage : ServerUsage) : ServerStat :=
  { id := id
    serverId := serverId
    timestamp := now
    cpuUsage := usage.cpu
    ramUsage := usage.memory
    diskUsage := usage.disk
    state := usage.state }

/-- `createServerStat(serverId, usage)`: append the sample and, if the
history now exceeds 100 entries, `shift()` the oldest one off the front. -/
def createServerStat (st : Storage) (serverId : Nat) (usage : ServerUsage) (now : Nat) :
    ServerStat × Storage :=
  let stat := mkStat st.serverStatsNextId serverId now usage
  let currentStats := (jsGet st.serverStatsData serverId).getD []
  let pushed := currentStats ++ [stat]
  let capped := if pushed.length > 100 then pushed.tail else pushed
  (stat,
    { st with
      serverStatsData := jsSet st.serverStatsData serverId capped
      serverStatsNextId := st.serverStatsNextId + 1 })

/-! ## Reconciliation (`syncPterodactylServers`) -/

/-- The game-type label `` `${nest}/${egg}` ``. -/
def gameTypeOf (ptero : PterodactylServer) : String :=
  toString ptero.attributes.nest ++ "/" ++ toString ptero.attributes.egg

/-- The update branch of `syncPterodactylServers`: spread the existing record
and overwrite the orchestrator-reported fields
(`description` falls back to the existing one when the reported one is falsy). -/
def mergeServer (existingServer : Server) (ptero : PterodactylServer) : Server :=
  { existingServer with
    name := ptero.attributes.name
    description :=
      if truthyStr ptero.attributes.description then ptero.attributes.description
      else existingServer.description
    node := some ptero.attributes.node
    gameType := some (gameTypeOf ptero)
    status := ptero.attributes.status.toLower
    ipAddress := ptero.attributes.allocation.ip
    port := ptero.attributes.allocation.port
    memoryLimit := ptero.attributes.limits.memory
    diskLimit := ptero.attributes.limits.disk
    cpuLimit := ptero.attributes.limits.cpu }

/-- The `InsertServer` literal built in the create branch of
`syncPterodactylServers` (`description` is `ptero.attributes.description || ""`). -/
def insertOf (userId : Nat) (ptero : PterodactylServer) : InsertServer :=
  { userId := userId
    pterodactylId := ptero.attributes.identifier
    name := ptero.attributes.name
    description := ptero.attributes.description.getD ""
    node := ptero.attributes.node
    gameType := gameTypeOf ptero
    status := ptero.attributes.status.toLower
    ipAddress := ptero.attributes.allocation.ip
    port := ptero.attributes.allocation.port
    memoryLimit := ptero.attributes.limits.memory
    diskLimit := ptero.attributes.limits.disk
    cpuLimit := ptero.attributes.limits.cpu }

/-- One iteration of the `for (const ptero of pterodactylServers)` loop.
`lookup` is the `existingServersByPterodactylId` map, built once before the
loop and never updated during it. -/
def syncStep (lookup : List (String × Server)) (userId now : Nat)
    (acc : List Server × Storage) (ptero : PterodactylServer) : List Server × Storage :=
  let (syncedServers, st) := acc
  let pterodactylId := ptero.attributes.identifier
  match jsGet lookup pterodactylId with
  | some existingServer =>
    let updatedServer := mergeServer existingServer ptero
    (syncedServers ++ [updatedServer],
      { st with serversData := jsSet st.serversData existingServer.id updatedServer })
  | none =>
    let created := createServer st (insertOf userId ptero) now
    (syncedServers ++ [created.1], created.2)

/-- One iteration of the final loop over `missingServers`; an error carries
the storage state at the time of the throw. -/
def markMissingStep (acc : Except (String × Storage) (List Server × Storage))
    (server : Server) : Except (String × Storage) (List Server × Storage) :=
  match acc with
  | .error e => .error e
  | .ok (syncedServers, st) =>
    match updateServerStatus st server.id "deleted" with
    | none => .error ("Server with ID " ++ toString server.id ++ " not found", st)
    | some (updatedServer, st') => .ok (syncedServers ++ [updatedServer], st')

/-- The `existingServersByPterodactylId` map: built once, by insertion
order of `existingServers` (a later server with the same external id wins). -/
def buildLookup (servers : List Server) : List (String × Server) :=
  servers.foldl (fun m s => jsSet m s.pterodactylId s) []

/-- `syncPterodactylServers(userId, pterodactylServers)`: merge each reported
server into the registry (update in place if the owner already has a record
with that external id, else create), then mark every previously-known record
of the owner whose external id was not reported with status `"deleted"`. -/
def syncPterodactylServers (st : Storage) (userId : Nat)
    (pterodactylServers : List PterodactylServer) (now : Nat) :
    Except (String × Storage) (List Server × Storage) :=
  let existingServers := getServers st userId
  let existingByPid := buildLookup existingServers
  let phase1 := pterodactylServers.foldl (syncStep existingByPid userId now) ([], st)
  let pterodactylIds := pterodactylServers.map (fun p => p.attributes.identifier)
  let missingServers :=
    existingServers.filter (fun s => !(pterodactylIds.contains s.pterodactylId))
  missingServers.foldl markMissingStep (.ok phase1)

/-! ## Route layer (`setupPterodactyl`)

Each route is modelled for an authenticated user (`req.user.id` is `userId`,
`req.user.pterodactylApiKey` is `apiKey`; an absent key is the empty string,
the only falsy value of the model).  The outbound `fetch` is abstracted by a
`NetOutcome` oracle and every issued request is logged. -/

/-- One outbound HTTP request, as issued by `pterodactylClientRequest`. -/
structure ApiRequest where
  endpoint : String
  method : String
  apiKey : String
deriving DecidableEq

/-- What the network would answer: a parsed 2xx body, or a non-2xx/transport
failure carrying the HTTP status and the (truncated) response text. -/
inductive NetOutcome (α : Type) where
  | ok (data : α)
  | netError (status : Nat) (body : String)

/-- `pterodactylClientRequest(endpoint, apiKey, method, body)`: reject when no
base URL is configured, otherwise issue the request and either return the
parsed body or throw an error carrying the status and response text.  Note
that the function performs no check on `apiKey` itself. -/
def pterodactylClientRequest {α : Type} (baseUrl endpoint apiKey method : String)
    (net : NetOutcome α) : List ApiRequest × Except String α :=
  if baseUrl = "" then ([], .error "Pterodactyl base URL is not configured")
  else
    ([{ endpoint := endpoint, method := method, apiKey := apiKey }],
      match net with
      | .ok data => .ok data
      | .netError status body =>
        .error ("Pterodactyl API error: " ++ toString status ++ " " ++ body))

/-- An HTTP response of a route handler. -/
inductive RouteResult (α : Type) where
  | ok (body : α)
  | badRequest (msg : String)
  | notFound (msg : String)
  | serverError (msg : String)
deriving DecidableEq

/-- The 400 message every route sends when the user has no Pterodactyl API key. -/
def apiKeyNotSetMsg : String :=
  "Pterodactyl API key not set. Please set it in your profile settings."

/-- `GET /api/servers`: check the API key, fetch the user's servers from the
orchestrator and reconcile them into the registry.  (The oracle delivers the
response's `data` field already normalised to an array, as the handler does.) -/
def listServersRoute (baseUrl : String) (st : Storage) (userId : Nat) (apiKey : String)
    (net : NetOutcome (List PterodactylServer)) (now : Nat) :
    List ApiRequest × RouteResult (List Server) × Storage :=
  if apiKey = "" then ([], .badRequest apiKeyNotSetMsg, st)
  else
    let r := pterodactylClientRequest baseUrl "" apiKey "GET" net
    match r.2 with
    | .error _ =>
      (r.1, .serverError
        "Failed to fetch servers. Please check your Pterodactyl API key and try again.", st)
    | .ok pterodactylServers =>
      match syncPterodactylServers st userId pterodactylServers now with
      | .error e =>
        (r.1, .serverError
          "Failed to fetch servers. Please check your Pterodactyl API key and try again.", e.2)
      | .ok (servers, st') => (r.1, .ok servers, st')

/-- `GET /api/servers/:id`: local lookup and ownership check, API-key check,
fetch the one server and reconcile it.  (The handler returns
`updatedServers[0]` enriched with an empty ticket list; the model returns the
head of the synced batch.) -/
def getServerRoute (baseUrl : String) (st : Storage) (userId : Nat) (apiKey : String)
    (serverId : String) (net : NetOutcome PterodactylServer) (now : Nat) :
    List ApiRequest × RouteResult (Option Server) × Storage :=
  match getServerByPterodactylId st serverId with
  | none => ([], .notFound "Server not found", st)
  | some server =>
    if server.userId ≠ userId then ([], .notFound "Server not found", st)
    else if apiKey = "" then ([], .badRequest apiKeyNotSetMsg, st)
    else
      let r := pterodactylClientRequest baseUrl ("servers/" ++ serverId) apiKey "GET" net
      match r.2 with
      | .error _ =>
        (r.1, .serverError
          "Failed to fetch server details. Please check your Pterodactyl API key and try again.", st)
      | .ok pterodactylServer =>
        match syncPterodactylServers st userId [pterodactylServer] now with
        | .error e =>
          (r.1, .serverError
            "Failed to fetch server details. Please check your Pterodactyl API key and try again.", e.2)
        | .ok (updatedServers, st') => (r.1, .ok updatedServers.head?, st')

/-- `resourcesResponse.data.attributes` as the stats route reads it. -/
structure UsageAttributes where
  cpu_absolute : Int
  memory_bytes : Int
  disk_bytes : Int
  state : String
deriving DecidableEq

/-- The `ServerUsage` literal built by the stats route (`|| 0` is the identity
here, since `0` is the numeric fallback; JS float division is modelled on `Int`). -/
def usageOf (usageData : UsageAttributes) : ServerUsage :=
  { cpu := usageData.cpu_absolute
    memory := usageData.memory_bytes / 1024 / 1024
    disk := usageData.disk_bytes / 1024 / 1024
    state := strOr usageData.state "offline" }

/-- One iteration of the stats route's per-server loop: fetch the server's
resources; any error, and an absent `data.attributes`, just skips the server
(per-server `try`/`catch`). -/
def serverStatsStep (baseUrl apiKey : String)
    (net : String → NetOutcome (Option UsageAttributes)) (now : Nat)
    (acc : List ApiRequest × List ServerStat × Storage) (server : Server) :
    List ApiRequest × List ServerStat × Storage :=
  let (reqs, allStats, st) := acc
  let r := pterodactylClientRequest baseUrl
    ("servers/" ++ server.pterodactylId ++ "/resources") apiKey "GET"
    (net server.pterodactylId)
  match r.2 with
  | .error _ => (reqs ++ r.1, allStats, st)
  | .ok none => (reqs ++ r.1, allStats, st)
  | .ok (some usageData) =>
    let created := createServerStat st server.id (usageOf usageData) now
    (reqs ++ r.1, allStats ++ [created.1], created.2)

/-- `GET /api/server-stats`: return `[]` at once when the user has no servers
(before the API-key check), else check the key and poll every server. -/
def serverStatsRoute (baseUrl : String) (st : Storage) (userId : Nat) (apiKey : String)
    (net : String → NetOutcome (Option UsageAttributes)) (now : Nat) :
    List ApiRequest × RouteResult (List ServerStat) × Storage :=
  let servers := getServers st userId
  if servers.isEmpty then ([], .ok [], st)
  else if apiKey = "" then ([], .badRequest apiKeyNotSetMsg, st)
  else
    let out := servers.foldl (serverStatsStep baseUrl apiKey net now) ([], [], st)
    (out.1, .ok out.2.1, out.2.2)

/-- The optimistic status the power route writes after the orchestrator
accepts the command (the `switch (action)` statement). -/
def powerStatusFor (action : String) (server : Server) : String :=
  if action = "start" then "starting"
  else if action = "restart" then "restarting"
  else if action = "stop" ∨ action = "kill" then "stopping"
  else server.status

/-- `POST /api/servers/:id/power`: validate the action string, look the server
up and check ownership, check the API key, forward the action to the
orchestrator and, on success, apply the optimistic status update.  Any thrown
error (transport failure, missing record on update) is caught and surfaced as
a 500 with the storage unchanged since the throw. -/
def powerRoute (baseUrl : String) (st : Storage) (userId : Nat) (apiKey : String)
    (serverId action : String) (net : NetOutcome Unit) :
    List ApiRequest × RouteResult String × Storage :=
  if action = "" ∨ ¬ (["start", "stop", "restart", "kill"].contains action) then
    ([], .badRequest "Invalid power action. Must be one of: start, stop, restart, kill", st)
  else
    match getServerByPterodactylId st serverId with
    | none => ([], .notFound "Server not found", st)
    | some server =>
      if server.userId ≠ userId then ([], .notFound "Server not found", st)
      else if apiKey = "" then ([], .badRequest apiKeyNotSetMsg, st)
      else
        let r := pterodactylClientRequest baseUrl ("servers/" ++ serverId ++ "/power")
          apiKey "POST" net
        match r.2 with
        | .error _ =>
          (r.1, .serverError "Failed to control server power. Please try again later.", st)
        | .ok _ =>
          match updateServerStatus st server.id (powerStatusFor action server) with
          | none =>
            (r.1, .serverError "Failed to control server power. Please try again later.", st)
          | some (_, st') => (r.1, .ok ("Server " ++ action ++ " initiated"), st')

/-- `POST /api/servers/:id/command`: reject an empty command, look the server
up and check ownership, check the API key, forward the command. -/
def commandRoute (baseUrl : String) (st : Storage) (userId : Nat) (apiKey : String)
    (serverId command : String) (net : NetOutcome Unit) :
    List ApiRequest × RouteResult String × Storage :=
  if command = "" then ([], .badRequest "Command is required", st)
  else
    match getServerByPterodactylId st serverId with
    | none => ([], .notFound "Server not found", st)
    | some server =>
      if server.userId ≠ userId then ([], .notFound "Server not found", st)
      else if apiKey = "" then ([], .badRequest apiKeyNotSetMsg, st)
      else
        let r := pterodactylClientRequest baseUrl ("servers/" ++ serverId ++ "/command")
          apiKey "POST" net
        match r.2 with
        | .error _ =>
          (r.1, .serverError "Failed to send command. Please try again later.", st)
        | .ok _ => (r.1, .ok "Command sent", st)

/-! ## Well-formedness and auxiliary definitions -/

/-- Well-formedness of the registry slice of a `MemStorage` state, as every
state reachable through the class maintains it: map keys are unique, each
record's `id` field equals its key, and every key is below the `currentId`
counter (so freshly assigned ids never collide). -/
def StorageWF (st : Storage) : Prop :=
  (jsKeys st.serversData).Nodup ∧
  (∀ p ∈ st.serversData, p.2.id = p.1) ∧
  (∀ p ∈ st.serversData, p.1 < st.serversNextId)

instance (st : Storage) : Decidable (StorageWF st) := by
  unfold StorageWF; infer_instance

/-- A sequence of `createServerStat` calls for one server, oldest first. -/
def recordSeq (st : Storage) (serverId : Nat) : List (ServerUsage × Nat) → Storage
  | [] => st
  | ut :: rest => recordSeq (createServerStat st serverId ut.1 ut.2).2 serverId rest

/-- The stats such a sequence creates, given the first assigned id. -/
def statsFrom (id serverId : Nat) : List (ServerUsage × Nat) → List ServerStat
  | [] => []
  | ut :: rest => mkStat id serverId ut.2 ut.1 :: statsFrom (id + 1) serverId rest

/-- Soundness of the `existingServersByPterodactylId` snapshot relative to the
owner and the pre-pass id counter `c0`: every hit is an owner record keyed by
its own external id, with an id assigned before the pass. -/
def lookupSound (lookup : List (String × Server)) (userId c0 : Nat) : Prop :=
  ∀ x s, jsGet lookup x = some s →
    s.pterodactylId = x ∧ s.userId = userId ∧ s.id < c0

/-- During the merge loop, every external id the snapshot knows keeps a
registry entry at the snapshot record's internal id, owned by the user and
carrying that external id. -/
def SyncTrack (lookup : List (String × Server)) (userId : Nat) (st : Storage) : Prop :=
  ∀ x s, jsGet lookup x = some s →
    ∃ v, jsGet st.serversData s.id = some v ∧
      v.pterodactylId = x ∧ v.userId = userId

/-- The invariant maintained by every iteration of the merge loop. -/
def SyncInv (lookup : List (String × Server)) (userId c0 : Nat) (st : Storage) : Prop :=
  (jsKeys st.serversData).Nodup ∧
  (∀ p ∈ st.serversData, p.2.id = p.1) ∧
  (∀ p ∈ st.serversData, p.1 < st.serversNextId) ∧
  c0 ≤ st.serversNextId ∧
  SyncTrack lookup userId st

/-- What one segment of the merge loop guarantees, from state `st` to state
`st'`: the invariant and counter monotonicity; preservation of entries at keys
at or above the pre-pass counter `c0`; preservation of key presence;
preservation of entries no iteration of the segment writes to; and, for every
reported server unknown to the snapshot, a created owner record at a fresh
key. -/
def SyncPost (lookup : List (String × Server)) (userId c0 : Nat)
    (st st' : Storage) (batch : List PterodactylServer) : Prop :=
  SyncInv lookup userId c0 st' ∧
  st.serversNextId ≤ st'.serversNextId ∧
  (∀ k v, c0 ≤ k → jsGet st.serversData k = some v → jsGet st'.serversData k = some v) ∧
  (∀ k, (jsGet st.serversData k).isSome → (jsGet st'.serversData k).isSome) ∧
  (∀ k v, jsGet st.serversData k = some v →
      (∀ p ∈ batch, ∀ e, jsGet lookup p.attributes.identifier = some e → e.id ≠ k) →
      jsGet st'.serversData k = some v) ∧
  (∀ p ∈ batch, jsGet lookup p.attributes.identifier = none →
      ∃ k v, c0 ≤ k ∧ jsGet st'.serversData k = some v ∧
        v.pterodactylId = p.attributes.identifier ∧ v.userId = userId)

/-! ## Concrete inputs for witnesses and counterexamples -/

/-- A registry record for user 7 whose server is currently running. -/
def exServer : Server :=
  { id := 1
    userId := 7
    pterodactylId := "a1"
    name := "srv"
    description := none
    node := none
    gameType := none
    status := "running"
    ipAddress := "10.0.0.1"
    port := 25565
    memoryLimit := 1024
    diskLimit := 2048
    cpuLimit := 100
    createdAt := 0 }

/-- A storage state holding just `exServer`. -/
def exStorage : Storage :=
  { serversData := [(1, exServer)]
    serverStatsData := [(1, [])]
    serversNextId := 2
    serverStatsNextId := 1 }

/-- The `MemStorage` constructor state (registry slice). -/
def emptyStorage : Storage :=
  { serversData := []
    serverStatsData := []
    serversNextId := 1
    serverStatsNextId := 1 }

/-- A reported server with external id `"a1"`. -/
def exAttrs (name status : String) : PterodactylAttributes :=
  { identifier := "a1"
    name := name
    description := some "d"
    status := status
    node := "node1"
    nest := 1
    egg := 2
    allocation := { ip := "10.0.0.2", port := 25566 }
    limits := { memory := 2048, disk := 4096, cpu := 200 } }

/-- First reported entry for `"a1"`. -/
def exPtero1 : PterodactylServer := ⟨exAttrs "srv-one" "running"⟩

/-- Second reported entry for `"a1"` (differs from the first). -/
def exPtero2 : PterodactylServer := ⟨exAttrs "srv-two" "offline"⟩

/-- A sample usage reading. -/
def exUsage : ServerUsage := { cpu := 1, memory := 2, disk := 3, state := "running" }

/-- A failing network outcome (HTTP 500). -/
def exNetFail : NetOutcome Unit := .netError 500 "Server Error"

/-- A stats-route oracle that always fails. -/
def exStatsNet : String → NetOutcome (Option UsageAttributes) :=
  fun _ => .netError 500 "Server Error"

/-! ## Basic lemmas about the map model -/

lemma jsGet_jsSet_self {κ α : Type} [DecidableEq κ] (m : List (κ × α)) (k : κ) (v : α) :
    jsGet (jsSet m k v) k = some v := by
  induction m with
  | nil => simp [jsGet, jsSet]
  | cons p rest ih =>
    obtain ⟨a, b⟩ := p
    by_cases h : a = k
    · simp [jsSet, h, jsGet]
    · simp [jsSet, h, jsGet, ih]

lemma jsGet_jsSet_ne {κ α : Type} [DecidableEq κ] (m : List (κ × α)) {k k' : κ} (v : α)
    (h : k' ≠ k) : jsGet (jsSet m k v) k' = jsGet m k' := by
  have hk : ¬ (k = k') := fun hh => h hh.symm
  induction m with
  | nil => simp [jsGet, jsSet, hk]
  | cons p rest ih =>
    obtain ⟨a, b⟩ := p
    by_cases hp : a = k
    · subst hp
      simp [jsSet, jsGet, hk]
    · simp [jsSet, hp, jsGet, ih]

lemma jsSet_jsSet_same {κ α : Type} [DecidableEq κ] (m : List (κ × α)) (k : κ) (v w : α) :
    jsSet (jsSet m k v) k w = jsSet m k w := by
  induction m with
  | nil => simp [jsSet]
  | cons p rest ih =>
    obtain ⟨a, b⟩ := p
    by_cases h : a = k
    · simp [jsSet, h]
    · simp [jsSet, h, ih]

lemma jsGet_eq_none_iff {κ α : Type} [DecidableEq κ] (m : List (κ × α)) (k : κ) :
    jsGet m k = none ↔ k ∉ jsKeys m := by
  induction m with
  | nil => simp [jsGet, jsKeys]
  | cons p rest ih =>
    obtain ⟨a, b⟩ := p
    simp only [jsKeys, List.map_cons, List.mem_cons]
    by_cases h : a = k
    · simp [jsGet, h]
    · have h' : ¬ (k = a) := fun hh => h hh.symm
      simp only [jsGet, h, if_false]
      rw [ih]
      simp [jsKeys, h']

lemma jsGet_isSome_jsSet {κ α : Type} [DecidableEq κ] (m : List (κ × α)) (k k' : κ) (v : α)
    (h : (jsGet m k').isSome) : (jsGet (jsSet m k v) k').isSome := by
  by_cases hk : k' = k
  · subst hk; simp [jsGet_jsSet_self]
  · rwa [jsGet_jsSet_ne m v hk]

lemma jsGet_mem {κ α : Type} [DecidableEq κ] {m : List (κ × α)} {k : κ} {v : α}
    (h : jsGet m k = some v) : (k, v) ∈ m := by
  induction m with
  | nil => simp [jsGet] at h
  | cons p rest ih =>
    obtain ⟨a, b⟩ := p
    by_cases hp : a = k
    · subst hp
      simp [jsGet] at h
      subst h
      exact List.mem_cons_self _ _
    · simp only [jsGet, hp, if_false] at h
      exact List.mem_cons_of_mem _ (ih h)

lemma mem_jsSet {κ α : Type} [DecidableEq κ] {m : List (κ × α)} {k : κ} {v : α} {q : κ × α}
    (h : q ∈ jsSet m k v) : q = (k, v) ∨ q ∈ m := by
  induction m with
  | nil => simpa [jsSet] using h
  | cons p rest ih =>
    obtain ⟨a, b⟩ := p
    by_cases hp : a = k
    · simp only [jsSet, hp, if_true, if_pos] at h
      rcases List.mem_cons.mp h with h | h
      · exact .inl h
      · exact .inr (List.mem_cons_of_mem _ h)
    · simp only [jsSet, hp, if_false] at h
      rcases List.mem_cons.mp h with h | h
      · exact .inr (h ▸ List.mem_cons_self _ _)
      · rcases ih h with h | h
        · exact .inl h
        · exact .inr (List.mem_cons_of_mem _ h)

lemma jsKeys_jsSet_of_isSome {κ α : Type} [DecidableEq κ] (m : List (κ × α)) (k : κ) (v : α)
    (h : (jsGet m k).isSome) : jsKeys (jsSet m k v) = jsKeys m := by
  induction m with
  | nil => simp [jsGet] at h
  | cons p rest ih =>
    obtain ⟨a, b⟩ := p
    by_cases hp : a = k
    · subst hp
      simp [jsSet, jsKeys]
    · simp only [jsGet, hp, if_false] at h
      simp [jsSet, hp, jsKeys] at ih ⊢
      exact ih h

lemma jsKeys_jsSet_of_none {κ α : Type} [DecidableEq κ] (m : List (κ × α)) (k : κ) (v : α)
    (h : jsGet m k = none) : jsKeys (jsSet m k v) = jsKeys m ++ [k] := by
  induction m with
  | nil => simp [jsSet, jsKeys]
  | cons p rest ih =>
    obtain ⟨a, b⟩ := p
    by_cases hp : a = k
    · simp [jsGet, hp] at h
    · simp only [jsGet, hp, if_false] at h
      simp [jsSet, hp, jsKeys] at ih ⊢
      exact ih h

lemma jsGet_of_mem_nodup {κ α : Type} [DecidableEq κ] {m : List (κ × α)} {k : κ} {v : α}
    (hnd : (jsKeys m).Nodup) (h : (k, v) ∈ m) : jsGet m k = some v := by
  induction m with
  | nil => simp at h
  | cons p rest ih =>
    obtain ⟨a, b⟩ := p
    simp only [jsKeys, List.map_cons, List.nodup_cons] at hnd
    rcases List.mem_cons.mp h with h | h
    · rw [Prod.mk.injEq] at h
      obtain ⟨h1, h2⟩ := h
      subst h1; subst h2
      simp [jsGet]
    · by_cases hp : a = k
      · exfalso
        exact hnd.1 (hp ▸ (List.mem_map.mpr ⟨(k, v), h, rfl⟩))
      · simp only [jsGet, hp, if_false]
        exact ih hnd.2 h

lemma mem_jsValues_of_jsGet {κ α : Type} [DecidableEq κ] {m : List (κ × α)} {k : κ} {v : α}
    (h : jsGet m k = some v) : v ∈ jsValues m :=
  List.mem_map.mpr ⟨(k, v), jsGet_mem h, rfl⟩

lemma mem_jsValues_iff {κ α : Type} (m : List (κ × α)) (v : α) :
    v ∈ jsValues m ↔ ∃ k, (k, v) ∈ m := by
  constructor
  · intro h
    rcases List.mem_map.mp h with ⟨p, hp, he⟩
    exact ⟨p.1, by simpa [← he] using hp⟩
  · rintro ⟨k, hk⟩
    exact List.mem_map.mpr ⟨(k, v), hk, rfl⟩

/-! ## Derived facts about a well-formed registry -/

lemma valuesIdMap {st : Storage} (h : StorageWF st) :
    (jsValues st.serversData).map Server.id = jsKeys st.serversData := by
  obtain ⟨-, hid, -⟩ := h
  unfold jsValues jsKeys
  rw [List.map_map]
  exact List.map_congr_left (fun p hp => hid p hp)

lemma valuesNodup {st : Storage} (h : StorageWF st) :
    (jsValues st.serversData).Nodup := by
  have := valuesIdMap h
  have hnd : ((jsValues st.serversData).map Server.id).Nodup := this ▸ h.1
  exact hnd.of_map _

lemma value_inj {st : Storage} (h : StorageWF st) {a b : Server}
    (ha : a ∈ jsValues st.serversData) (hb : b ∈ jsValues st.serversData)
    (hab : a.id = b.id) : a = b := by
  have hnd : ((jsValues st.serversData).map Server.id).Nodup := (valuesIdMap h) ▸ h.1
  exact List.inj_on_of_nodup_map hnd ha hb hab

lemma entry_of_value {st : Storage} (h : StorageWF st) {v : Server}
    (hv : v ∈ jsValues st.serversData) : jsGet st.serversData v.id = some v := by
  rcases (mem_jsValues_iff _ _).mp hv with ⟨k, hk⟩
  have : v.id = k := h.2.1 (k, v) hk
  rw [this]
  exact jsGet_of_mem_nodup h.1 hk

lemma key_lt_of_value {st : Storage} (h : StorageWF st) {v : Server}
    (hv : v ∈ jsValues st.serversData) : v.id < st.serversNextId := by
  rcases (mem_jsValues_iff _ _).mp hv with ⟨k, hk⟩
  have := h.2.1 (k, v) hk
  rw [this]
  exact h.2.2 (k, v) hk

lemma mem_getServers_iff (st : Storage) (userId : Nat) (s : Server) :
    s ∈ getServers st userId ↔ s ∈ jsValues st.serversData ∧ s.userId = userId := by
  simp [getServers, List.mem_filter]

lemma getByPid_spec {st : Storage} {pid : String} {s : Server}
    (h : getServerByPterodactylId st pid = some s) :
    s ∈ jsValues st.serversData ∧ s.pterodactylId = pid := by
  refine ⟨List.mem_of_find?_eq_some h, ?_⟩
  have := List.find?_some h
  simpa using this

/-! ## The `existingServersByPterodactylId` snapshot -/

lemma buildLookup_get_aux (l : List Server) :
    ∀ (m0 : List (String × Server)) (x : String) (s : Server),
    jsGet (l.foldl (fun m t => jsSet m t.pterodactylId t) m0) x = some s →
    (s ∈ l ∧ s.pterodactylId = x) ∨ jsGet m0 x = some s := by
  induction l with
  | nil => exact fun m0 x s h => .inr h
  | cons t rest ih =>
    intro m0 x s h
    rcases ih (jsSet m0 t.pterodactylId t) x s h with h' | h'
    · exact .inl ⟨List.mem_cons_of_mem _ h'.1, h'.2⟩
    · by_cases hx : x = t.pterodactylId
      · subst hx
        rw [jsGet_jsSet_self] at h'
        cases h'
        exact .inl ⟨List.mem_cons_self _ _, rfl⟩
      · rw [jsGet_jsSet_ne _ _ hx] at h'
        exact .inr h'

lemma buildLookup_get {l : List Server} {x : String} {s : Server}
    (h : jsGet (buildLookup l) x = some s) : s ∈ l ∧ s.pterodactylId = x := by
  rcases buildLookup_get_aux l [] x s h with h' | h'
  · exact h'
  · simp [jsGet] at h'

lemma buildLookup_keep (l : List Server) :
    ∀ (m0 : List (String × Server)) (x : String) (s : Server),
    jsGet m0 x = some s → (∀ t ∈ l, t.pterodactylId = x → t = s) →
    jsGet (l.foldl (fun m t => jsSet m t.pterodactylId t) m0) x = some s := by
  induction l with
  | nil => exact fun m0 x s h _ => h
  | cons t rest ih =>
    intro m0 x s h huniq
    by_cases hx : t.pterodactylId = x
    · have : t = s := huniq t (List.mem_cons_self _ _) hx
      subst this
      refine ih _ x t ?_ (fun u hu => huniq u (List.mem_cons_of_mem _ hu))
      rw [← hx, jsGet_jsSet_self]
    · refine ih _ x s ?_ (fun u hu => huniq u (List.mem_cons_of_mem _ hu))
      rw [jsGet_jsSet_ne _ _ (fun hh => hx hh.symm)]
      exact h

lemma buildLookup_get_unique_aux (l : List Server) :
    ∀ (m0 : List (String × Server)) (x : String) (s : Server),
    s ∈ l → s.pterodactylId = x → (∀ t ∈ l, t.pterodactylId = x → t = s) →
    jsGet (l.foldl (fun m t => jsSet m t.pterodactylId t) m0) x = some s := by
  induction l with
  | nil => intro _ _ _ h; simp at h
  | cons t rest ih =>
    intro m0 x s hs hpid huniq
    by_cases hx : t.pterodactylId = x
    · have ht : t = s := huniq t (List.mem_cons_self _ _) hx
      subst ht
      refine buildLookup_keep rest _ x t ?_
        (fun u hu => huniq u (List.mem_cons_of_mem _ hu))
      rw [← hx, jsGet_jsSet_self]
    · have hs' : s ∈ rest := by
        rcases List.mem_cons.mp hs with h | h
        · exact absurd (h ▸ hpid) hx
        · exact h
      exact ih _ x s hs' hpid (fun u hu => huniq u (List.mem_cons_of_mem _ hu))

lemma buildLookup_get_unique {l : List Server} {x : String} {s : Server}
    (hs : s ∈ l) (hpid : s.pterodactylId = x)
    (huniq : ∀ t ∈ l, t.pterodactylId = x → t = s) :
    jsGet (buildLookup l) x = some s :=
  buildLookup_get_unique_aux l [] x s hs hpid huniq

/-! ## Establishing the merge-loop invariant -/

lemma initial_lookupSound {st : Storage} (h : StorageWF st) (userId : Nat) :
    lookupSound (buildLookup (getServers st userId)) userId st.serversNextId := by
  intro x s hget
  obtain ⟨hmem, hpid⟩ := buildLookup_get hget
  obtain ⟨hval, huser⟩ := (mem_getServers_iff st userId s).mp hmem
  exact ⟨hpid, huser, key_lt_of_value h hval⟩

lemma initial_track {st : Storage} (h : StorageWF st) (userId : Nat) :
    SyncTrack (buildLookup (getServers st userId)) userId st := by
  intro x s hget
  obtain ⟨hmem, hpid⟩ := buildLookup_get hget
  obtain ⟨hval, huser⟩ := (mem_getServers_iff st userId s).mp hmem
  exact ⟨s, entry_of_value h hval, hpid, huser⟩

lemma initial_inv {st : Storage} (h : StorageWF st) (userId : Nat) :
    SyncInv (buildLookup (getServers st userId)) userId st.serversNextId st :=
  ⟨h.1, h.2.1, h.2.2, le_refl _, initial_track h userId⟩

/-! ## The merge loop -/

lemma mergeServer_id (e : Server) (p : PterodactylServer) :
    (mergeServer e p).id = e.id := rfl

lemma mergeServer_userId (e : Server) (p : PterodactylServer) :
    (mergeServer e p).userId = e.userId := rfl

lemma mergeServer_pid (e : Server) (p : PterodactylServer) :
    (mergeServer e p).pterodactylId = e.pterodactylId := rfl

lemma mergeServer_createdAt (e : Server) (p : PterodactylServer) :
    (mergeServer e p).createdAt = e.createdAt := rfl

lemma SyncPost_nil (lookup : List (String × Server)) (userId c0 : Nat) (st : Storage)
    (hInv : SyncInv lookup userId c0 st) : SyncPost lookup userId c0 st st [] := by
  refine ⟨hInv, le_refl _, fun k v _ h => h, fun k h => h, fun k v h _ => h, ?_⟩
  intro p hp
  simp at hp

lemma SyncPost_trans {lookup : List (String × Server)} {userId c0 : Nat}
    {st st1 st' : Storage} {p : PterodactylServer} {rest : List PterodactylServer}
    (h1 : SyncPost lookup userId c0 st st1 [p])
    (h2 : SyncPost lookup userId c0 st1 st' rest) :
    SyncPost lookup userId c0 st st' (p :: rest) := by
  obtain ⟨hInv1, hle1, hpres1, hsome1, hunt1, hcre1⟩ := h1
  obtain ⟨hInv2, hle2, hpres2, hsome2, hunt2, hcre2⟩ := h2
  refine ⟨hInv2, le_trans hle1 hle2, ?_, ?_, ?_, ?_⟩
  · exact fun k v hc hk => hpres2 k v hc (hpres1 k v hc hk)
  · exact fun k hk => hsome2 k (hsome1 k hk)
  · intro k v hk hguard
    refine hunt2 k v ?_ (fun q hq => hguard q (List.mem_cons_of_mem _ hq))
    exact hunt1 k v hk (fun q hq => hguard q (by simpa using .inl (List.eq_of_mem_singleton hq)))
  · intro q hq hnone
    rcases List.mem_cons.mp hq with h | h
    · subst h
      obtain ⟨k, v, hc, hk, hpid, huid⟩ := hcre1 q (List.mem_singleton_self _) hnone
      exact ⟨k, v, hc, hpres2 k v hc hk, hpid, huid⟩
    · exact hcre2 q h hnone

lemma syncStep_spec {lookup : List (String × Server)} {userId c0 : Nat} (now : Nat)
    (hL : lookupSound lookup userId c0)
    (synced : List Server) (st : Storage) (p : PterodactylServer)
    (hInv : SyncInv lookup userId c0 st) :
    SyncPost lookup userId c0 st (syncStep lookup userId now (synced, st) p).2 [p] := by
  obtain ⟨hnd, hid, hbound, hc0, htrack⟩ := hInv
  cases hGet : jsGet lookup p.attributes.identifier with
  | some e =>
    obtain ⟨hpidE, huidE, hidltE⟩ := hL _ _ hGet
    obtain ⟨v0, hv0, hv0pid, hv0uid⟩ := htrack _ _ hGet
    have hstep : (syncStep lookup userId now (synced, st) p).2 =
        { st with serversData := jsSet st.serversData e.id (mergeServer e p) } := by
      simp [syncStep, hGet]
    rw [hstep]
    have hpresent : (jsGet st.serversData e.id).isSome := by rw [hv0]; rfl
    have hkeys : jsKeys (jsSet st.serversData e.id (mergeServer e p)) =
        jsKeys st.serversData := jsKeys_jsSet_of_isSome _ _ _ hpresent
    refine ⟨⟨?_, ?_, ?_, hc0, ?_⟩, le_refl _, ?_, ?_, ?_, ?_⟩
    · rw [hkeys]; exact hnd
    · intro q hq
      rcases mem_jsSet hq with h | h
      · rw [h]; exact mergeServer_id e p
      · exact hid q h
    · intro q hq
      rcases mem_jsSet hq with h | h
      · rw [h]
        exact hbound (e.id, v0) (jsGet_mem hv0)
      · exact hbound q h
    · intro x s hx
      obtain ⟨vs, hvs, hvspid, hvsuid⟩ := htrack _ _ hx
      by_cases hse : s.id = e.id
      · refine ⟨mergeServer e p, by rw [hse, jsGet_jsSet_self], ?_, ?_⟩
        · rw [hse] at hvs
          have hveq : vs = v0 := by
            have := hvs.symm.trans hv0
            exact Option.some_injective _ this
          rw [mergeServer_pid, hpidE, ← hv0pid, ← hveq, hvspid]
        · rw [mergeServer_userId, huidE]
      · exact ⟨vs, by rw [jsGet_jsSet_ne _ _ hse]; exact hvs, hvspid, hvsuid⟩
    · intro k v hck hk
      have hne : k ≠ e.id := fun h => by
        rw [h] at hck
        exact absurd (lt_of_lt_of_le hidltE hck) (lt_irrefl _)
      rw [jsGet_jsSet_ne _ _ hne]
      exact hk
    · exact fun k hk => jsGet_isSome_jsSet _ _ _ _ hk
    · intro k v hk hguard
      have hne : e.id ≠ k := hguard p (List.mem_singleton_self _) e hGet
      rw [jsGet_jsSet_ne _ _ (fun h => hne h.symm)]
      exact hk
    · intro q hq hnone
      rcases List.mem_cons.mp hq with h | h
      · rw [h] at hnone
        rw [hGet] at hnone
        cases hnone
      · simp at h
  | none =>
    have hstep : (syncStep lookup userId now (synced, st) p).2 =
        (createServer st (insertOf userId p) now).2 := by
      simp [syncStep, hGet]
    have hfresh : jsGet st.serversData st.serversNextId = none := by
      rw [jsGet_eq_none_iff]
      intro hk
      rcases List.mem_map.mp hk with ⟨q, hq, hq1⟩
      exact absurd (hq1 ▸ hbound q hq) (lt_irrefl _)
    have hdata : (createServer st (insertOf userId p) now).2.serversData =
        jsSet st.serversData st.serversNextId (createServer st (insertOf userId p) now).1 := rfl
    have hnextEq : (createServer st (insertOf userId p) now).2.serversNextId =
        st.serversNextId + 1 := rfl
    rw [hstep]
    have hkeys : jsKeys (createServer st (insertOf userId p) now).2.serversData =
        jsKeys st.serversData ++ [st.serversNextId] := by
      rw [hdata]
      exact jsKeys_jsSet_of_none _ _ _ hfresh
    have hnotin : st.serversNextId ∉ jsKeys st.serversData := by
      rw [← jsGet_eq_none_iff]
      exact hfresh
    refine ⟨⟨?_, ?_, ?_, ?_, ?_⟩, ?_, ?_, ?_, ?_, ?_⟩
    · rw [hkeys]
      simp [List.nodup_append, hnd, hnotin]
    · intro q hq
      rw [hdata] at hq
      rcases mem_jsSet hq with h | h
      · rw [h]; rfl
      · exact hid q h
    · intro q hq
      rw [hdata] at hq
      rw [hnextEq]
      rcases mem_jsSet hq with h | h
      · rw [h]
        exact Nat.lt_succ_self _
      · exact Nat.lt_succ_of_lt (hbound q h)
    · rw [hnextEq]
      exact Nat.le_succ_of_le hc0
    · intro x s hx
      obtain ⟨vs, hvs, hvspid, hvsuid⟩ := htrack _ _ hx
      have hne : s.id ≠ st.serversNextId := by
        intro h
        exact absurd (h ▸ (hL _ _ hx).2.2) (fun hh => absurd hc0 (not_le_of_lt hh))
      refine ⟨vs, ?_, hvspid, hvsuid⟩
      rw [hdata, jsGet_jsSet_ne _ _ hne]
      exact hvs
    · rw [hnextEq]
      exact Nat.le_succ _
    · intro k v hck hk
      have hne : k ≠ st.serversNextId := by
        intro h
        rw [h, hfresh] at hk
        cases hk
      rw [hdata, jsGet_jsSet_ne _ _ hne]
      exact hk
    · intro k hk
      rw [hdata]
      exact jsGet_isSome_jsSet _ _ _ _ hk
    · intro k v hk _
      have hne : k ≠ st.serversNextId := by
        intro h
        rw [h, hfresh] at hk
        cases hk
      rw [hdata, jsGet_jsSet_ne _ _ hne]
      exact hk
    · intro q hq _
      refine ⟨st.serversNextId, (createServer st (insertOf userId p) now).1, hc0, ?_, ?_, ?_⟩
      · rw [hdata]
        exact jsGet_jsSet_self _ _ _
      · rcases List.mem_cons.mp hq with h | h
        · rw [h]; rfl
        · simp at h
      · rfl

lemma syncFold_spec {lookup : List (String × Server)} {userId c0 : Nat} (now : Nat)
    (hL : lookupSound lookup userId c0) :
    ∀ (batch : List PterodactylServer) (synced : List Server) (st : Storage),
    SyncInv lookup userId c0 st →
    SyncPost lookup userId c0 st
      (batch.foldl (syncStep lookup userId now) (synced, st)).2 batch := by
  intro batch
  induction batch with
  | nil => exact fun synced st hInv => SyncPost_nil _ _ _ _ hInv
  | cons p rest ih =>
    intro synced st hInv
    have hstep := syncStep_spec now hL synced st p hInv
    have hfold :
        ((p :: rest).foldl (syncStep lookup userId now) (synced, st)) =
        (rest.foldl (syncStep lookup userId now)
          (syncStep lookup userId now (synced, st) p)) := rfl
    rw [hfold]
    have hInv1 := hstep.1
    have hrest := ih (syncStep lookup userId now (synced, st) p).1
      (syncStep lookup userId now (synced, st) p).2 hInv1
    exact SyncPost_trans hstep (by simpa using hrest)

/-! ## The missing-server marking loop -/

lemma markMissing_spec :
    ∀ (missing : List Server) (synced : List Server) (st : Storage),
    (missing.map Server.id).Nodup →
    (∀ s ∈ missing, (jsGet st.serversData s.id).isSome) →
    ∃ synced' st',
      missing.foldl markMissingStep (.ok (synced, st)) = .ok (synced', st') ∧
      (∀ k, (∀ s ∈ missing, s.id ≠ k) →
          jsGet st'.serversData k = jsGet st.serversData k) ∧
      (∀ s ∈ missing, ∀ v, jsGet st.serversData s.id = some v →
          jsGet st'.serversData s.id = some { v with status := "deleted" }) ∧
      jsKeys st'.serversData = jsKeys st.serversData ∧
      ((∀ p ∈ st.serversData, p.2.id = p.1) → (∀ p ∈ st'.serversData, p.2.id = p.1)) ∧
      st'.serversNextId = st.serversNextId := by
  intro missing
  induction missing with
  | nil =>
    intro synced st _ _
    exact ⟨synced, st, rfl, fun k _ => rfl, by simp, rfl, fun h => h, rfl⟩
  | cons s rest ih =>
    intro synced st hnd hpres
    have hsome := hpres s (List.mem_cons_self _ _)
    obtain ⟨v, hv⟩ := Option.isSome_iff_exists.mp hsome
    have hndr : (rest.map Server.id).Nodup := ((List.nodup_cons.mp (by simpa using hnd)).2)
    have hsid : s.id ∉ rest.map Server.id := ((List.nodup_cons.mp (by simpa using hnd)).1)
    have hupd : updateServerStatus st s.id "deleted" =
        some ({ v with status := "deleted" },
          { st with serversData := jsSet st.serversData s.id { v with status := "deleted" } }) := by
      simp [updateServerStatus, getServerById, hv]
    have hstep : markMissingStep (.ok (synced, st)) s =
        .ok (synced ++ [{ v with status := "deleted" }],
          { st with serversData := jsSet st.serversData s.id { v with status := "deleted" } }) := by
      simp [markMissingStep, hupd]
    set st1 : Storage :=
      { st with serversData := jsSet st.serversData s.id { v with status := "deleted" } } with hst1
    have hpres1 : ∀ t ∈ rest, (jsGet st1.serversData t.id).isSome := by
      intro t ht
      exact jsGet_isSome_jsSet _ _ _ _ (hpres t (List.mem_cons_of_mem _ ht))
    obtain ⟨synced', st', hfold, hunch, hmark, hkeys, hidk, hnext⟩ :=
      ih (synced ++ [{ v with status := "deleted" }]) st1 hndr hpres1
    have hner : ∀ t ∈ rest, t.id ≠ s.id := by
      intro t ht h
      exact hsid (h ▸ List.mem_map.mpr ⟨t, ht, rfl⟩)
    refine ⟨synced', st', ?_, ?_, ?_, ?_, ?_, ?_⟩
    · rw [List.foldl_cons, hstep]
      exact hfold
    · intro k hk
      have h1 : jsGet st'.serversData k = jsGet st1.serversData k :=
        hunch k (fun t ht => hk t (List.mem_cons_of_mem _ ht))
      rw [h1, hst1]
      exact jsGet_jsSet_ne _ _ (fun h => hk s (List.mem_cons_self _ _) h.symm)
    · intro t ht v' hv'
      rcases List.mem_cons.mp ht with h | h
      · subst h
        have hveq : v' = v := Option.some_injective _ (hv'.symm.trans hv)
        subst hveq
        have h1 : jsGet st'.serversData t.id = jsGet st1.serversData t.id :=
          hunch t.id (fun u hu => hner u hu)
        rw [h1, hst1]
        exact jsGet_jsSet_self _ _ _
      · have h1 : jsGet st1.serversData t.id = jsGet st.serversData t.id := by
          rw [hst1]
          exact jsGet_jsSet_ne _ _ (hner t h)
        exact hmark t h v' (h1.trans hv')
    · rw [hkeys, hst1]
      exact jsKeys_jsSet_of_isSome _ _ _ hsome
    · intro hidSt
      refine hidk ?_
      intro q hq
      rw [hst1] at hq
      rcases mem_jsSet hq with h | h
      · rw [h]
        exact hidSt (s.id, v) (jsGet_mem hv)
      · exact hidSt q h
    · rw [hnext, hst1]

/-! ## A reconciliation pass, end to end -/

lemma getServers_ids_nodup {st : Storage} (h : StorageWF st) (userId : Nat) :
    ((getServers st userId).map Server.id).Nodup := by
  have hv : ((jsValues st.serversData).map Server.id).Nodup := (valuesIdMap h) ▸ h.1
  have hsub : List.Sublist (getServers st userId) (jsValues st.serversData) :=
    List.filter_sublist _
  exact (hsub.map Server.id).nodup hv

lemma sync_spec {st : Storage} (userId : Nat) (batch : List PterodactylServer) (now : Nat)
    (hWF : StorageWF st) :
    ∃ synced st',
      syncPterodactylServers st userId batch now = .ok (synced, st') ∧
      (∀ s ∈ getServers st userId,
          s.pterodactylId ∉ batch.map (fun p => p.attributes.identifier) →
          jsGet st'.serversData s.id = some { s with status := "deleted" }) ∧
      (∀ p ∈ batch, ∃ v ∈ jsValues st'.serversData,
          v.pterodactylId = p.attributes.identifier ∧ v.userId = userId) := by
  classical
  set lookup := buildLookup (getServers st userId) with hlk
  have hL := initial_lookupSound hWF userId
  have hInv0 := initial_inv hWF userId
  have hpost := syncFold_spec now hL batch [] st hInv0
  set st1 := (batch.foldl (syncStep lookup userId now) ([], st)).2 with hst1
  obtain ⟨hInv1, hle1, hpres1, hsome1, hunt1, hcre1⟩ := hpost
  set pids := batch.map (fun p => p.attributes.identifier) with hpids
  set missing :=
    (getServers st userId).filter (fun s => !(pids.contains s.pterodactylId)) with hmiss
  have hmissSub : List.Sublist missing (getServers st userId) := List.filter_sublist _
  have hndm : (missing.map Server.id).Nodup :=
    (hmissSub.map _).nodup (getServers_ids_nodup hWF userId)
  have hmempres : ∀ s ∈ missing, (jsGet st1.serversData s.id).isSome := by
    intro s hs
    have hsg : s ∈ getServers st userId := hmissSub.subset hs
    have hentry : jsGet st.serversData s.id = some s :=
      entry_of_value hWF ((mem_getServers_iff st userId s).mp hsg).1
    exact hsome1 s.id (by rw [hentry]; rfl)
  obtain ⟨synced', st', hfold, hunch, hmark, hkeys, hidk, hnext⟩ :=
    markMissing_spec missing (batch.foldl (syncStep lookup userId now) ([], st)).1 st1
      hndm hmempres
  refine ⟨synced', st', ?_, ?_, ?_⟩
  · exact hfold
  · intro s hs hnot
    have hsv := (mem_getServers_iff st userId s).mp hs
    have hentry : jsGet st.serversData s.id = some s := entry_of_value hWF hsv.1
    have hsmiss : s ∈ missing := by
      rw [hmiss]
      refine List.mem_filter.mpr ⟨hs, ?_⟩
      simp only [List.contains, List.elem_eq_mem, Bool.not_eq_true', decide_eq_false_iff_not]
      exact hnot
    have hguard : ∀ p ∈ batch, ∀ e, jsGet lookup p.attributes.identifier = some e →
        e.id ≠ s.id := by
      intro p hp e hget heq
      obtain ⟨hmem, hpid⟩ := buildLookup_get hget
      have heval : e ∈ jsValues st.serversData := ((mem_getServers_iff st userId e).mp hmem).1
      have hes : e = s := value_inj hWF heval hsv.1 heq
      refine hnot ?_
      rw [hpids]
      exact List.mem_map.mpr ⟨p, hp, by rw [← hpid, hes]⟩
    have h1 : jsGet st1.serversData s.id = some s := hunt1 s.id s hentry hguard
    exact hmark s hsmiss s h1
  · intro p hp
    have htransfer : ∀ k v, jsGet st1.serversData k = some v →
        ∃ v', jsGet st'.serversData k = some v' ∧
          v'.pterodactylId = v.pterodactylId ∧ v'.userId = v.userId := by
      intro k v hk
      by_cases hcase : ∀ s ∈ missing, s.id ≠ k
      · exact ⟨v, by rw [hunch k hcase]; exact hk, rfl, rfl⟩
      · push_neg at hcase
        obtain ⟨s, hsm, hsk⟩ := hcase
        refine ⟨{ v with status := "deleted" }, ?_, rfl, rfl⟩
        rw [← hsk]
        exact hmark s hsm v (by rw [hsk]; exact hk)
    cases hx : jsGet lookup p.attributes.identifier with
    | some e =>
      obtain ⟨v, hv, hvpid, hvuid⟩ := hInv1.2.2.2.2 _ _ hx
      obtain ⟨v', hv', hpid', huid'⟩ := htransfer _ _ hv
      exact ⟨v', mem_jsValues_of_jsGet hv', by rw [hpid', hvpid], by rw [huid', hvuid]⟩
    | none =>
      obtain ⟨k, v, hc, hk, hpid, huid⟩ := hcre1 p hp hx
      obtain ⟨v', hv', hpid', huid'⟩ := htransfer _ _ hk
      exact ⟨v', mem_jsValues_of_jsGet hv', by rw [hpid', hpid], by rw [huid', huid]⟩

/-! ## Telemetry store -/

lemma getServerStats_createServerStat (st : Storage) (serverId : Nat)
    (u : ServerUsage) (now : Nat) :
    getServerStats (createServerStat st serverId u now).2 serverId =
      if (getServerStats st serverId).length + 1 > 100 then
        ((getServerStats st serverId) ++ [mkStat st.serverStatsNextId serverId now u]).tail
      else (getServerStats st serverId) ++ [mkStat st.serverStatsNextId serverId now u] := by
  simp [createServerStat, getServerStats, jsGet_jsSet_self]

lemma createServerStat_nextId (st : Storage) (serverId : Nat)
    (u : ServerUsage) (now : Nat) :
    (createServerStat st serverId u now).2.serverStatsNextId = st.serverStatsNextId + 1 := rfl

lemma createServerStat_fst (st : Storage) (serverId : Nat) (u : ServerUsage) (now : Nat) :
    (createServerStat st serverId u now).1 = mkStat st.serverStatsNextId serverId now u := rfl

lemma statsFrom_length (serverId : Nat) :
    ∀ (us : List (ServerUsage × Nat)) (id : Nat),
    (statsFrom id serverId us).length = us.length := by
  intro us
  induction us with
  | nil => intro id; rfl
  | cons ut rest ih => intro id; simp [statsFrom, ih]

lemma statsFrom_id_ge (serverId : Nat) :
    ∀ (us : List (ServerUsage × Nat)) (id : Nat),
    ∀ s ∈ statsFrom id serverId us, id ≤ s.id := by
  intro us
  induction us with
  | nil => intro id s hs; simp [statsFrom] at hs
  | cons ut rest ih =>
    intro id s hs
    rcases List.mem_cons.mp hs with h | h
    · rw [h]; exact le_refl _
    · exact Nat.le_of_succ_le (ih (id + 1) s h)

lemma recordSeq_history (serverId : Nat) :
    ∀ (us : List (ServerUsage × Nat)) (st : Storage),
    (getServerStats st serverId).length ≤ 100 →
    getServerStats (recordSeq st serverId us) serverId =
      ((getServerStats st serverId) ++ statsFrom st.serverStatsNextId serverId us).drop
        ((getServerStats st serverId).length + us.length - 100) := by
  intro us
  induction us with
  | nil =>
    intro st h
    simp [recordSeq, statsFrom, Nat.sub_eq_zero_of_le h]
  | cons ut rest ih =>
    intro st h
    have hrec : recordSeq st serverId (ut :: rest) =
        recordSeq (createServerStat st serverId ut.1 ut.2).2 serverId rest := rfl
    have hstats := getServerStats_createServerStat st serverId ut.1 ut.2
    have hnext := createServerStat_nextId st serverId ut.1 ut.2
    set h0 := getServerStats st serverId with hh0
    set c0 := st.serverStatsNextId with hc0
    set stat := mkStat c0 serverId ut.2 ut.1 with hstat
    set st1 := (createServerStat st serverId ut.1 ut.2).2 with hst1
    have hSfrom : statsFrom c0 serverId (ut :: rest) =
        stat :: statsFrom (c0 + 1) serverId rest := rfl
    by_cases hcap : h0.length + 1 > 100
    · have hlen100 : h0.length = 100 := by omega
      have hstats1 : getServerStats st1 serverId = (h0 ++ [stat]).tail := by
        rw [hstats, if_pos hcap]
      have hlen1 : (getServerStats st1 serverId).length = 100 := by
        rw [hstats1, List.length_tail, List.length_append, hlen100]
        simp
      have hfin := ih st1 (le_of_eq hlen1)
      rw [hlen1] at hfin
      rw [hstats1, hnext] at hfin
      rw [hrec, hfin, hSfrom]
      rw [List.append_cons h0 stat (statsFrom (c0 + 1) serverId rest)]
      have hidx1 : 100 + rest.length - 100 = rest.length := by omega
      have hidx2 : h0.length + (ut :: rest).length - 100 = rest.length + 1 := by
        simp only [List.length_cons]
        omega
      rw [hidx1, hidx2]
      have hsplit : List.drop 1 ((h0 ++ [stat]) ++ statsFrom (c0 + 1) serverId rest) =
          (h0 ++ [stat]).drop 1 ++ statsFrom (c0 + 1) serverId rest := by
        refine List.drop_append_of_le_length ?_
        simp
      rw [← List.drop_one, ← hsplit, List.drop_drop]
      congr 1
      omega
    · have hstats1 : getServerStats st1 serverId = h0 ++ [stat] := by
        rw [hstats, if_neg hcap]
      have hlen1 : (getServerStats st1 serverId).length ≤ 100 := by
        rw [hstats1, List.length_append]
        simp only [List.length_singleton]
        omega
      have hfin := ih st1 hlen1
      rw [hstats1, hnext] at hfin
      rw [hrec, hfin, hSfrom]
      rw [List.append_cons h0 stat (statsFrom (c0 + 1) serverId rest)]
      congr 1
      simp only [List.length_append, List.length_cons, List.length_nil]
      omega

lemma filter_eq_singleton_of {α : Type} {l : List α} {p : α → Bool} {a : α}
    (hnd : l.Nodup) (ha : a ∈ l) (hpa : p a = true)
    (hall : ∀ x ∈ l, p x = true → x = a) : l.filter p = [a] := by
  induction l with
  | nil => simp at ha
  | cons h t ih =>
    obtain ⟨hht, hndt⟩ := List.nodup_cons.mp hnd
    by_cases php : p h = true
    · have hha : h = a := hall h (List.mem_cons_self _ _) php
      subst hha
      rw [List.filter_cons_of_pos php]
      have htnil : t.filter p = [] := by
        rw [List.filter_eq_nil_iff]
        intro x hx hpx
        exact hht ((hall x (List.mem_cons_of_mem _ hx) hpx) ▸ hx)
      rw [htnil]
    · have hat : a ∈ t := by
        rcases List.mem_cons.mp ha with h' | h'
        · exact absurd (h' ▸ hpa) php
        · exact h'
      rw [List.filter_cons_of_neg php]
      exact ih hndt hat (fun x hx hpx => hall x (List.mem_cons_of_mem _ hx) hpx)

/-! ## Claim theorems -/

/-- C7: a merge of a reported server into an existing record (the update
branch of `syncPterodactylServers`) preserves the internal id, the owning
user, the external id and the creation timestamp; every other field of the
result is one of the orchestrator-reported fields (name, description, node,
game type, status, endpoint host/port, memory/disk/cpu limits), so only those
may change. -/
theorem upsert_preserves_identity (e : Server) (p : PterodactylServer) :
    (mergeServer e p).id = e.id ∧
    (mergeServer e p).userId = e.userId ∧
    (mergeServer e p).pterodactylId = e.pterodactylId ∧
    (mergeServer e p).createdAt = e.createdAt ∧
    mergeServer e p =
      { e with
        name := (mergeServer e p).name
        description := (mergeServer e p).description
        node := (mergeServer e p).node
        gameType := (mergeServer e p).gameType
        status := (mergeServer e p).status
        ipAddress := (mergeServer e p).ipAddress
        port := (mergeServer e p).port
        memoryLimit := (mergeServer e p).memoryLimit
        diskLimit := (mergeServer e p).diskLimit
        cpuLimit := (mergeServer e p).cpuLimit } :=
  ⟨rfl, rfl, rfl, rfl, rfl⟩

/-- C8: merging the same reported server twice in succession gives the same
record as merging it once — the update branch of `syncPterodactylServers` is
idempotent, with no field drift. -/
theorem upsert_idempotent (e : Server) (p : PterodactylServer) :
    mergeServer (mergeServer e p) p = mergeServer e p := by
  unfold mergeServer
  by_cases h : truthyStr p.attributes.description
  · simp [h]
  · simp [h]

/-- C10: `createServerStat` never fails for an internal id with no `Server`
record: it creates the history if absent, appends the sample and returns it,
so the history then contains the sample (and, starting from an absent or
empty history, the history is exactly the one sample). -/
theorem record_stat_without_record (st : Storage) (serverId : Nat)
    (usage : ServerUsage) (now : Nat)
    (_hnorec : getServerById st serverId = none) :
    (createServerStat st serverId usage now).1 ∈
      getServerStats (createServerStat st serverId usage now).2 serverId ∧
    (getServerStats st serverId = [] →
      getServerStats (createServerStat st serverId usage now).2 serverId =
        [(createServerStat st serverId usage now).1]) := by
  rw [createServerStat_fst, getServerStats_createServerStat]
  constructor
  · by_cases hcap : (getServerStats st serverId).length + 1 > 100
    · rw [if_pos hcap]
      cases hcur : getServerStats st serverId with
      | nil => rw [hcur] at hcap; simp at hcap
      | cons c cs => simp [hcur]
    · rw [if_neg hcap]
      simp
  · intro hemp
    rw [hemp]
    simp

/-- C3: starting from a history of at most 100 samples, any sequence of
`createServerStat` calls keeps the per-server history at or below 100
samples, and the history equals the pushed samples with the oldest dropped
first (FIFO); in particular, 101 sequential calls from an empty history leave
exactly 100 samples, with the first call's sample (the one whose id is the
starting counter value) absent. -/
theorem stats_capacity_fifo (st : Storage) (serverId : Nat)
    (us : List (ServerUsage × Nat))
    (hlen : (getServerStats st serverId).length ≤ 100) :
    (getServerStats (recordSeq st serverId us) serverId).length ≤ 100 ∧
    getServerStats (recordSeq st serverId us) serverId =
      ((getServerStats st serverId) ++ statsFrom st.serverStatsNextId serverId us).drop
        ((getServerStats st serverId).length + us.length - 100) ∧
    (getServerStats st serverId = [] → us.length = 101 →
      (getServerStats (recordSeq st serverId us) serverId).length = 100 ∧
      getServerStats (recordSeq st serverId us) serverId =
        (statsFrom st.serverStatsNextId serverId us).drop 1 ∧
      ∀ s ∈ getServerStats (recordSeq st serverId us) serverId,
        s.id ≠ st.serverStatsNextId) := by
  have hc := recordSeq_history serverId us st hlen
  refine ⟨?_, hc, ?_⟩
  · rw [hc, List.length_drop, List.length_append, statsFrom_length]
    omega
  · intro hemp h101
    have hc' : getServerStats (recordSeq st serverId us) serverId =
        (statsFrom st.serverStatsNextId serverId us).drop 1 := by
      rw [hc, hemp, List.nil_append, List.length_nil, Nat.zero_add, h101]
    refine ⟨?_, hc', ?_⟩
    · rw [hc', List.length_drop, statsFrom_length, h101]
    · intro s hs
      rw [hc'] at hs
      cases us with
      | nil => simp at h101
      | cons u1 rest =>
        have : statsFrom st.serverStatsNextId serverId (u1 :: rest) =
            mkStat st.serverStatsNextId serverId u1.2 u1.1 ::
              statsFrom (st.serverStatsNextId + 1) serverId rest := rfl
        rw [this, List.drop_one, List.tail_cons] at hs
        have := statsFrom_id_ge serverId rest (st.serverStatsNextId + 1) s hs
        omega

/-- C10 witness: recording for internal id 5, which has no `Server` record in
`exStorage`, succeeds and the sample is in the history. -/
theorem record_stat_without_record_witness :
    getServerById exStorage 5 = none ∧
    ((createServerStat exStorage 5 exUsage 9).1 ∈
        getServerStats (createServerStat exStorage 5 exUsage 9).2 5 ∧
      (getServerStats exStorage 5 = [] →
        getServerStats (createServerStat exStorage 5 exUsage 9).2 5 =
          [(createServerStat exStorage 5 exUsage 9).1])) :=
  ⟨by decide, record_stat_without_record exStorage 5 exUsage 9 (by decide)⟩

/-- C3 witness: 101 sequential records for server 3 from the empty
constructor state. -/
theorem stats_capacity_fifo_witness :
    (getServerStats emptyStorage 3).length ≤ 100 ∧
    ((getServerStats (recordSeq emptyStorage 3 (List.replicate 101 (exUsage, 5))) 3).length ≤ 100 ∧
      getServerStats (recordSeq emptyStorage 3 (List.replicate 101 (exUsage, 5))) 3 =
        ((getServerStats emptyStorage 3) ++
            statsFrom emptyStorage.serverStatsNextId 3 (List.replicate 101 (exUsage, 5))).drop
          ((getServerStats emptyStorage 3).length + (List.replicate 101 (exUsage, 5)).length - 100) ∧
      (getServerStats emptyStorage 3 = [] → (List.replicate 101 (exUsage, 5)).length = 101 →
        (getServerStats (recordSeq emptyStorage 3 (List.replicate 101 (exUsage, 5))) 3).length = 100 ∧
        getServerStats (recordSeq emptyStorage 3 (List.replicate 101 (exUsage, 5))) 3 =
          (statsFrom emptyStorage.serverStatsNextId 3 (List.replicate 101 (exUsage, 5))).drop 1 ∧
        ∀ s ∈ getServerStats (recordSeq emptyStorage 3 (List.replicate 101 (exUsage, 5))) 3,
          s.id ≠ emptyStorage.serverStatsNextId)) :=
  ⟨by decide, stats_capacity_fifo emptyStorage 3 (List.replicate 101 (exUsage, 5)) (by decide)⟩

/-- C1 (amended): after a reconciliation pass, every previously-known record
of the owner whose external id is not in the reported batch keeps its entry
(it is not erased) and its power state — and nothing else — is set to the
terminal marker the code writes, the string `"deleted"`. -/
theorem missing_servers_marked (st : Storage) (userId : Nat)
    (batch : List PterodactylServer) (now : Nat) (hWF : StorageWF st) :
    ∃ synced st',
      syncPterodactylServers st userId batch now = .ok (synced, st') ∧
      ∀ s ∈ getServers st userId,
        s.pterodactylId ∉ batch.map (fun p => p.attributes.identifier) →
        jsGet st'.serversData s.id = some { s with status := "deleted" } := by
  obtain ⟨synced, st', hok, hA, -⟩ := sync_spec userId batch now hWF
  exact ⟨synced, st', hok, hA⟩

/-- C1 witness: a pass for user 7 with an empty batch marks the lone record. -/
theorem missing_servers_marked_witness :
    StorageWF exStorage ∧
    ∃ synced st',
      syncPterodactylServers exStorage 7 [] 0 = .ok (synced, st') ∧
      ∀ s ∈ getServers exStorage 7,
        s.pterodactylId ∉ ([] : List PterodactylServer).map (fun p => p.attributes.identifier) →
        jsGet st'.serversData s.id = some { s with status := "deleted" } :=
  ⟨by decide, missing_servers_marked exStorage 7 [] 0 (by decide)⟩

/-- C1 counterexample: the terminal marker the pass writes for a
no-longer-reported server is the string `"deleted"`, not `"removed"` — the
record for external id `"a1"` ends the pass with status `"deleted"`. -/
theorem missing_marker_not_removed :
    syncPterodactylServers exStorage 7 [] 0 =
      .ok ([{ exServer with status := "deleted" }],
        { exStorage with serversData := [(1, { exServer with status := "deleted" })] }) ∧
    "deleted" ≠ "removed" := by
  constructor
  · rfl
  · decide

/-- C5: after a reconciliation pass, every external id present in the input
batch has a record in the registry whose owning user is the user the pass was
run for. -/
theorem sync_batch_covered (st : Storage) (userId : Nat)
    (batch : List PterodactylServer) (now : Nat) (hWF : StorageWF st) :
    ∃ synced st',
      syncPterodactylServers st userId batch now = .ok (synced, st') ∧
      ∀ p ∈ batch, ∃ v ∈ jsValues st'.serversData,
        v.pterodactylId = p.attributes.identifier ∧ v.userId = userId := by
  obtain ⟨synced, st', hok, -, hB⟩ := sync_spec userId batch now hWF
  exact ⟨synced, st', hok, hB⟩

/-- C5 witness: a pass for user 7 over a one-entry batch. -/
theorem sync_batch_covered_witness :
    StorageWF emptyStorage ∧
    ∃ synced st',
      syncPterodactylServers emptyStorage 7 [exPtero1] 0 = .ok (synced, st') ∧
      ∀ p ∈ [exPtero1], ∃ v ∈ jsValues st'.serversData,
        v.pterodactylId = p.attributes.identifier ∧ v.userId = 7 :=
  ⟨by decide, sync_batch_covered emptyStorage 7 [exPtero1] 0 (by decide)⟩

/-- C6 (amended): when the owner already has exactly one record `e` for the
duplicated external id, a pass over a batch carrying that id twice leaves
exactly one owner record for the id, merged from the later entry (the later
entry wins).  (When no record pre-exists, the unupdated snapshot makes each
duplicate create its own record — see the counterexample.) -/
theorem duplicate_batch_later_wins (st : Storage) (userId : Nat) (e : Server)
    (p1 p2 : PterodactylServer) (now : Nat)
    (hWF : StorageWF st)
    (he : jsGet st.serversData e.id = some e)
    (huser : e.userId = userId)
    (hpid1 : p1.attributes.identifier = e.pterodactylId)
    (hpid2 : p2.attributes.identifier = e.pterodactylId)
    (huniq : ∀ v ∈ jsValues st.serversData,
        v.userId = userId → v.pterodactylId = e.pterodactylId → v = e) :
    ∃ synced st',
      syncPterodactylServers st userId [p1, p2] now = .ok (synced, st') ∧
      jsGet st'.serversData e.id = some (mergeServer e p2) ∧
      (jsValues st'.serversData).filter
        (fun v => v.userId = userId ∧ v.pterodactylId = e.pterodactylId) =
        [mergeServer e p2] := by
  classical
  have heval : e ∈ jsValues st.serversData := mem_jsValues_of_jsGet he
  have hg : e ∈ getServers st userId := (mem_getServers_iff st userId e).mpr ⟨heval, huser⟩
  set lookup := buildLookup (getServers st userId) with hlk
  have hlget : jsGet lookup e.pterodactylId = some e := by
    refine buildLookup_get_unique hg rfl ?_
    intro t ht hpt
    obtain ⟨htv, htu⟩ := (mem_getServers_iff st userId t).mp ht
    exact huniq t htv htu hpt
  have hlget1 : jsGet lookup p1.attributes.identifier = some e := by rw [hpid1]; exact hlget
  have hlget2 : jsGet lookup p2.attributes.identifier = some e := by rw [hpid2]; exact hlget
  have hphase1 : ([p1, p2].foldl (syncStep lookup userId now) ([], st)) =
      ([mergeServer e p1, mergeServer e p2],
        { st with serversData := jsSet st.serversData e.id (mergeServer e p2) }) := by
    simp [syncStep, hlget1, hlget2, jsSet_jsSet_same]
  set st2 : Storage :=
    { st with serversData := jsSet st.serversData e.id (mergeServer e p2) } with hst2
  set pids := [p1, p2].map (fun p => p.attributes.identifier) with hpids
  set missing :=
    (getServers st userId).filter (fun s => !(pids.contains s.pterodactylId)) with hmiss
  have hepids : e.pterodactylId ∈ pids := by
    rw [hpids]
    exact List.mem_map.mpr ⟨p1, List.mem_cons_self _ _, hpid1⟩
  have hmissne : ∀ s ∈ missing, s.id ≠ e.id := by
    intro s hs hse
    obtain ⟨hsg, hsp⟩ := List.mem_filter.mp hs
    obtain ⟨hsv, -⟩ := (mem_getServers_iff st userId s).mp hsg
    have : s = e := value_inj hWF hsv heval hse
    rw [this] at hsp
    simp only [List.contains, List.elem_eq_mem, Bool.not_eq_true', decide_eq_false_iff_not] at hsp
    exact hsp hepids
  have hmissSub : List.Sublist missing (getServers st userId) := List.filter_sublist _
  have hndm : (missing.map Server.id).Nodup :=
    (hmissSub.map _).nodup (getServers_ids_nodup hWF userId)
  have hget2 : ∀ s ∈ missing, jsGet st2.serversData s.id = jsGet st.serversData s.id := by
    intro s hs
    rw [hst2]
    exact jsGet_jsSet_ne _ _ (hmissne s hs)
  have hpres : ∀ s ∈ missing, (jsGet st2.serversData s.id).isSome := by
    intro s hs
    rw [hget2 s hs]
    obtain ⟨hsv, -⟩ := (mem_getServers_iff st userId s).mp (hmissSub.subset hs)
    rw [entry_of_value hWF hsv]
    rfl
  obtain ⟨synced', st', hfold, hunch, hmark, hkeys, hidk, hnext⟩ :=
    markMissing_spec missing [mergeServer e p1, mergeServer e p2] st2 hndm hpres
  have hsync : syncPterodactylServers st userId [p1, p2] now = .ok (synced', st') := by
    show List.foldl markMissingStep
      (.ok ([p1, p2].foldl (syncStep lookup userId now) ([], st))) missing = _
    rw [hphase1]
    exact hfold
  have hentry : jsGet st'.serversData e.id = some (mergeServer e p2) := by
    rw [hunch e.id (fun s hs => hmissne s hs), hst2]
    exact jsGet_jsSet_self _ _ _
  refine ⟨synced', st', hsync, hentry, ?_⟩
  -- exactly one owner record for the external id
  have hpresent : (jsGet st.serversData e.id).isSome := by rw [he]; rfl
  have hkeys2 : jsKeys st2.serversData = jsKeys st.serversData := by
    rw [hst2]
    exact jsKeys_jsSet_of_isSome _ _ _ hpresent
  have hid2 : ∀ p ∈ st2.serversData, p.2.id = p.1 := by
    intro q hq
    rw [hst2] at hq
    rcases mem_jsSet hq with h | h
    · rw [h]
      exact hWF.2.1 (e.id, e) (jsGet_mem he)
    · exact hWF.2.1 q h
  have hWF' : StorageWF st' := by
    refine ⟨?_, hidk hid2, ?_⟩
    · rw [hkeys, hkeys2]
      exact hWF.1
    · intro q hq
      have hk : q.1 ∈ jsKeys st.serversData := by
        rw [← hkeys2, ← hkeys]
        exact List.mem_map.mpr ⟨q, hq, rfl⟩
      rcases List.mem_map.mp hk with ⟨r, hr, hr1⟩
      rw [hnext]
      show q.1 < st.serversNextId
      rw [← hr1]
      exact hWF.2.2 r hr
  have hmerged_mem : mergeServer e p2 ∈ jsValues st'.serversData :=
    mem_jsValues_of_jsGet hentry
  have hP : (fun v : Server =>
      decide (v.userId = userId ∧ v.pterodactylId = e.pterodactylId)) (mergeServer e p2)
      = true := by
    rw [decide_eq_true_iff]
    exact ⟨by rw [mergeServer_userId, huser], by rw [mergeServer_pid]⟩
  refine filter_eq_singleton_of (valuesNodup hWF') hmerged_mem hP ?_
  intro v hv hPv
  rw [decide_eq_true_iff] at hPv
  obtain ⟨hvu, hvp⟩ := hPv
  rcases (mem_jsValues_iff _ _).mp hv with ⟨k, hkv⟩
  have hkid : v.id = k := hWF'.2.1 (k, v) hkv
  have hvget : jsGet st'.serversData k = some v := jsGet_of_mem_nodup hWF'.1 hkv
  by_cases hke : k = e.id
  · rw [hke, hentry] at hvget
    exact Option.some_injective _ hvget.symm
  · exfalso
    by_cases hm : ∀ s ∈ missing, s.id ≠ k
    · rw [hunch k hm, hst2, jsGet_jsSet_ne _ _ hke] at hvget
      have : v = e := huniq v (mem_jsValues_of_jsGet hvget) hvu hvp
      exact hke (by rw [← hkid, this])
    · push_neg at hm
      obtain ⟨s, hsm, hsk⟩ := hm
      obtain ⟨hsv, -⟩ := (mem_getServers_iff st userId s).mp (hmissSub.subset hsm)
      have hs2 : jsGet st2.serversData s.id = some s := by
        rw [hget2 s hsm]
        exact entry_of_value hWF hsv
      have hmarked := hmark s hsm s hs2
      rw [← hsk] at hvget
      have hveq : v = { s with status := "deleted" } :=
        Option.some_injective _ (hvget.symm.trans hmarked)
      have hse : s = e := by
        refine huniq s hsv ?_ ?_
        · have : v.userId = s.userId := by rw [hveq]
          rw [← this, hvu]
        · have : v.pterodactylId = s.pterodactylId := by rw [hveq]
          rw [← this, hvp]
      exact hmissne s hsm (by rw [hse])

/-- C6 witness: owner 7 already holds `"a1"`; a batch repeating `"a1"` ends
with exactly the record merged from the later entry. -/
theorem duplicate_batch_later_wins_witness :
    (StorageWF exStorage ∧
      jsGet exStorage.serversData exServer.id = some exServer ∧
      exServer.userId = 7 ∧
      exPtero1.attributes.identifier = exServer.pterodactylId ∧
      exPtero2.attributes.identifier = exServer.pterodactylId ∧
      (∀ v ∈ jsValues exStorage.serversData,
        v.userId = 7 → v.pterodactylId = exServer.pterodactylId → v = exServer)) ∧
    ∃ synced st',
      syncPterodactylServers exStorage 7 [exPtero1, exPtero2] 0 = .ok (synced, st') ∧
      jsGet st'.serversData exServer.id = some (mergeServer exServer exPtero2) ∧
      (jsValues st'.serversData).filter
        (fun v => v.userId = 7 ∧ v.pterodactylId = exServer.pterodactylId) =
        [mergeServer exServer exPtero2] :=
  ⟨⟨by decide, by decide, by decide, by decide, by decide, by decide⟩,
    duplicate_batch_later_wins exStorage 7 exServer exPtero1 exPtero2 0
      (by decide) (by decide) (by decide) (by decide) (by decide) (by decide)⟩

/-- C6 counterexample: with no pre-existing record for the duplicated
external id, the pass creates one record per duplicate entry (the
`existingServersByPterodactylId` snapshot is never updated during the loop),
so afterwards owner 7 has TWO records for external id `"a1"`, not exactly
one. -/
theorem duplicate_batch_two_records :
    (Except.toOption (syncPterodactylServers emptyStorage 7 [exPtero1, exPtero2] 0)).map
      (fun r => ((jsValues r.2.serversData).filter
        (fun v => v.userId = 7 ∧ v.pterodactylId = "a1")).length) = some 2 := by
  decide

/-- C2 (amended): the power endpoint performs no power-state-based
validation.  Whatever the record's current status, a syntactically valid
action on an owned server with a non-empty credential always issues exactly
one orchestrator call, succeeds when the orchestrator accepts, and applies
the optimistic transition (`start` → `starting`, `restart` → `restarting`,
`stop`/`kill` → `stopping`).  In particular `start` on a `running` record is
not rejected with any invalid-transition error. -/
theorem power_no_state_guard (baseUrl : String) (st : Storage) (userId : Nat)
    (apiKey serverId action : String) (server : Server)
    (hWF : StorageWF st)
    (hbase : baseUrl ≠ "")
    (haction : action ∈ ["start", "stop", "restart", "kill"])
    (hfind : getServerByPterodactylId st serverId = some server)
    (howner : server.userId = userId)
    (hkey : apiKey ≠ "") :
    (powerRoute baseUrl st userId apiKey serverId action (.ok ())).1 =
      [{ endpoint := "servers/" ++ serverId ++ "/power", method := "POST", apiKey := apiKey }] ∧
    (powerRoute baseUrl st userId apiKey serverId action (.ok ())).2.1 =
      .ok ("Server " ++ action ++ " initiated") ∧
    getServerById (powerRoute baseUrl st userId apiKey serverId action (.ok ())).2.2 server.id =
      some { server with status := powerStatusFor action server } := by
  have hact1 : action ≠ "" := fun he => absurd (he ▸ haction) (by decide)
  have hact2 : (["start", "stop", "restart", "kill"].contains action) = true := by
    simp only [List.contains, List.elem_eq_mem, decide_eq_true_iff]
    exact haction
  have hcond : ¬ (action = "" ∨ ¬ (["start", "stop", "restart", "kill"].contains action = true)) := by
    rintro (h | h)
    · exact hact1 h
    · exact h hact2
  have hentry : jsGet st.serversData server.id = some server :=
    entry_of_value hWF (getByPid_spec hfind).1
  have hupd : updateServerStatus st server.id (powerStatusFor action server) =
      some ({ server with status := powerStatusFor action server },
        { st with serversData := jsSet st.serversData server.id { server with status := powerStatusFor action server } }) := by
    simp [updateServerStatus, getServerById, hentry]
  have hroute : powerRoute baseUrl st userId apiKey serverId action (.ok ()) =
      ([{ endpoint := "servers/" ++ serverId ++ "/power", method := "POST", apiKey := apiKey }],
        .ok ("Server " ++ action ++ " initiated"),
        { st with serversData := jsSet st.serversData server.id { server with status := powerStatusFor action server } }) := by
    simp [powerRoute, hcond, hfind, howner, hkey, pterodactylClientRequest, hbase, hupd]
    refine ⟨hact1, fun h1 h2 h3 => ?_⟩
    have h4 := haction
    simp only [List.mem_cons, List.not_mem_nil, or_false] at h4
    rcases h4 with h | h | h | h
    · exact absurd h h1
    · exact absurd h h2
    · exact absurd h h3
    · exact h
  rw [hroute]
  refine ⟨rfl, rfl, ?_⟩
  show jsGet (jsSet st.serversData server.id _) server.id = _
  rw [jsGet_jsSet_self]

/-- C2 witness: `start` on the `running` record `"a1"` issues the orchestrator
call, succeeds and moves the record to `starting`. -/
theorem power_no_state_guard_witness :
    (StorageWF exStorage ∧ "http://panel" ≠ "" ∧
      "start" ∈ ["start", "stop", "restart", "kill"] ∧
      getServerByPterodactylId exStorage "a1" = some exServer ∧
      exServer.userId = 7 ∧ "k" ≠ "") ∧
    ((powerRoute "http://panel" exStorage 7 "k" "a1" "start" (.ok ())).1 =
      [{ endpoint := "servers/" ++ "a1" ++ "/power", method := "POST", apiKey := "k" }] ∧
    (powerRoute "http://panel" exStorage 7 "k" "a1" "start" (.ok ())).2.1 =
      .ok ("Server " ++ "start" ++ " initiated") ∧
    getServerById (powerRoute "http://panel" exStorage 7 "k" "a1" "start" (.ok ())).2.2
        exServer.id =
      some { exServer with status := powerStatusFor "start" exServer }) :=
  ⟨⟨by decide, by decide, by decide, by decide, by decide, by decide⟩,
    power_no_state_guard "http://panel" exStorage 7 "k" "a1" "start" exServer
      (by decide) (by decide) (by decide) (by decide) (by decide) (by decide)⟩

/-- C2 counterexample: the record for `"a1"` is currently `running`, yet
`start` is not rejected with an invalid-transition error: the orchestrator
client is called (one request issued) and the route answers success. -/
theorem power_start_on_running_calls_orchestrator :
    exServer.status = "running" ∧
    getServerByPterodactylId exStorage "a1" = some exServer ∧
    (powerRoute "http://panel" exStorage 7 "k" "a1" "start" (.ok ())).1 =
      [{ endpoint := "servers/a1/power", method := "POST", apiKey := "k" }] ∧
    (powerRoute "http://panel" exStorage 7 "k" "a1" "start" (.ok ())).2.1 =
      .ok "Server start initiated" := by
  decide

/-- C4: when the orchestrator call of a power action fails (transport error),
the route surfaces a 500 error and the storage is returned exactly as it was:
no optimistic update is applied. -/
theorem power_failure_no_mutation (baseUrl : String) (st : Storage) (userId : Nat)
    (apiKey serverId action : String) (server : Server) (httpStatus : Nat) (body : String)
    (hbase : baseUrl ≠ "")
    (haction : action ∈ ["start", "stop", "restart", "kill"])
    (hfind : getServerByPterodactylId st serverId = some server)
    (howner : server.userId = userId)
    (hkey : apiKey ≠ "") :
    powerRoute baseUrl st userId apiKey serverId action (.netError httpStatus body) =
      ([{ endpoint := "servers/" ++ serverId ++ "/power", method := "POST", apiKey := apiKey }],
        .serverError "Failed to control server power. Please try again later.",
        st) := by
  have hact1 : action ≠ "" := fun he => absurd (he ▸ haction) (by decide)
  have hact2 : (["start", "stop", "restart", "kill"].contains action) = true := by
    simp only [List.contains, List.elem_eq_mem, decide_eq_true_iff]
    exact haction
  have hcond : ¬ (action = "" ∨ ¬ (["start", "stop", "restart", "kill"].contains action = true)) := by
    rintro (h | h)
    · exact hact1 h
    · exact h hact2
  simp [powerRoute, hcond, hfind, howner, hkey, pterodactylClientRequest, hbase]
  refine ⟨hact1, fun h1 h2 h3 => ?_⟩
  have h4 := haction
  simp only [List.mem_cons, List.not_mem_nil, or_false] at h4
  rcases h4 with h | h | h | h
  · exact absurd h h1
  · exact absurd h h2
  · exact absurd h h3
  · exact h

/-- C4 witness: a failed `stop` for `"a1"` leaves the storage untouched and
surfaces the error. -/
theorem power_failure_no_mutation_witness :
    ("http://panel" ≠ "" ∧ "stop" ∈ ["start", "stop", "restart", "kill"] ∧
      getServerByPterodactylId exStorage "a1" = some exServer ∧
      exServer.userId = 7 ∧ "k" ≠ "") ∧
    powerRoute "http://panel" exStorage 7 "k" "a1" "stop" (.netError 500 "oops") =
      ([{ endpoint := "servers/" ++ "a1" ++ "/power", method := "POST", apiKey := "k" }],
        .serverError "Failed to control server power. Please try again later.",
        exStorage) :=
  ⟨⟨by decide, by decide, by decide, by decide, by decide⟩,
    power_failure_no_mutation "http://panel" exStorage 7 "k" "a1" "stop" exServer 500 "oops"
      (by decide) (by decide) (by decide) (by decide) (by decide)⟩

/-- C9 (amended): the credential check lives in each route handler, not in
`pterodactylClientRequest` (which performs no credential check of its own).
With an empty credential no route issues any HTTP request, and each route
answers the missing-credential 400 provided its earlier purely-local
validations pass (valid action, server found and owned, non-empty command,
non-empty server list); a route whose earlier local check fails first answers
that check's response instead — still without any network attempt. -/
theorem empty_credential_no_request (baseUrl : String) (st : Storage) (userId : Nat)
    (serverId action command : String)
    (net1 : NetOutcome (List PterodactylServer)) (net2 : NetOutcome PterodactylServer)
    (net3 : String → NetOutcome (Option UsageAttributes)) (net4 net5 : NetOutcome Unit)
    (now : Nat) :
    ((listServersRoute baseUrl st userId "" net1 now).1 = [] ∧
      (listServersRoute baseUrl st userId "" net1 now).2.1 = .badRequest apiKeyNotSetMsg) ∧
    ((getServerRoute baseUrl st userId "" serverId net2 now).1 = [] ∧
      (∀ server, getServerByPterodactylId st serverId = some server → server.userId = userId →
        (getServerRoute baseUrl st userId "" serverId net2 now).2.1 =
          .badRequest apiKeyNotSetMsg)) ∧
    ((serverStatsRoute baseUrl st userId "" net3 now).1 = [] ∧
      ((getServers st userId).isEmpty = false →
        (serverStatsRoute baseUrl st userId "" net3 now).2.1 = .badRequest apiKeyNotSetMsg)) ∧
    ((powerRoute baseUrl st userId "" serverId action net4).1 = [] ∧
      (action ∈ ["start", "stop", "restart", "kill"] →
        ∀ server, getServerByPterodactylId st serverId = some server → server.userId = userId →
        (powerRoute baseUrl st userId "" serverId action net4).2.1 =
          .badRequest apiKeyNotSetMsg)) ∧
    ((commandRoute baseUrl st userId "" serverId command net5).1 = [] ∧
      (command ≠ "" → ∀ server, getServerByPterodactylId st serverId = some server →
        server.userId = userId →
        (commandRoute baseUrl st userId "" serverId command net5).2.1 =
          .badRequest apiKeyNotSetMsg)) := by
  refine ⟨⟨?_, ?_⟩, ⟨?_, ?_⟩, ⟨?_, ?_⟩, ⟨?_, ?_⟩, ⟨?_, ?_⟩⟩
  · simp [listServersRoute]
  · simp [listServersRoute]
  · cases hf : getServerByPterodactylId st serverId with
    | none => simp [getServerRoute, hf]
    | some server =>
      by_cases ho : server.userId = userId
      · simp [getServerRoute, hf, ho]
      · simp [getServerRoute, hf, ho]
  · intro server hfind howner
    simp [getServerRoute, hfind, howner]
  · by_cases he : (getServers st userId).isEmpty
    · simp [serverStatsRoute, he]
    · simp [serverStatsRoute, he]
  · intro hne
    simp [serverStatsRoute, hne]
  · simp only [powerRoute]
    repeat' split
    all_goals simp_all [pterodactylClientRequest]
  · intro haction server hfind howner
    have hact1 : action ≠ "" := fun he => absurd (he ▸ haction) (by decide)
    have hact2 : (["start", "stop", "restart", "kill"].contains action) = true := by
      simp only [List.contains, List.elem_eq_mem, decide_eq_true_iff]
      exact haction
    have hval : ¬ (action = "" ∨ ¬ (["start", "stop", "restart", "kill"].contains action = true)) := by
      rintro (h | h)
      · exact hact1 h
      · exact h hact2
    simp [powerRoute, hval, hfind, howner]
    have h4 := haction
    simp only [List.mem_cons, List.not_mem_nil, or_false] at h4
    rcases h4 with h | h | h | h <;> subst h <;> simp
  · by_cases hc : command = ""
    · simp [commandRoute, hc]
    · cases hf : getServerByPterodactylId st serverId with
      | none => simp [commandRoute, hc, hf]
      | some server =>
        by_cases ho : server.userId = userId
        · simp [commandRoute, hc, hf, ho]
        · simp [commandRoute, hc, hf, ho]
  · intro hc server hfind howner
    simp [commandRoute, hc, hfind, howner]

/-- C9 witness: with an empty credential, all five operations issue no HTTP
request, and each answers the missing-credential 400 on inputs whose earlier
local validations pass. -/
theorem empty_credential_no_request_witness :
    ((getServers exStorage 7).isEmpty = false ∧
      getServerByPterodactylId exStorage "a1" = some exServer ∧
      exServer.userId = 7 ∧
      "start" ∈ ["start", "stop", "restart", "kill"] ∧
      ("cmd" : String) ≠ "") ∧
    ((listServersRoute "http://panel" exStorage 7 "" (.netError 500 "x") 0).1 = [] ∧
      (listServersRoute "http://panel" exStorage 7 "" (.netError 500 "x") 0).2.1 =
        .badRequest apiKeyNotSetMsg) ∧
    ((getServerRoute "http://panel" exStorage 7 "" "a1" (.netError 500 "x") 0).1 = [] ∧
      (getServerRoute "http://panel" exStorage 7 "" "a1" (.netError 500 "x") 0).2.1 =
        .badRequest apiKeyNotSetMsg) ∧
    ((serverStatsRoute "http://panel" exStorage 7 "" exStatsNet 0).1 = [] ∧
      (serverStatsRoute "http://panel" exStorage 7 "" exStatsNet 0).2.1 =
        .badRequest apiKeyNotSetMsg) ∧
    ((powerRoute "http://panel" exStorage 7 "" "a1" "start" exNetFail).1 = [] ∧
      (powerRoute "http://panel" exStorage 7 "" "a1" "start" exNetFail).2.1 =
        .badRequest apiKeyNotSetMsg) ∧
    ((commandRoute "http://panel" exStorage 7 "" "a1" "cmd" exNetFail).1 = [] ∧
      (commandRoute "http://panel" exStorage 7 "" "a1" "cmd" exNetFail).2.1 =
        .badRequest apiKeyNotSetMsg) := by
  have T := empty_credential_no_request "http://panel" exStorage 7 "a1" "start" "cmd"
    (.netError 500 "x") (.netError 500 "x") exStatsNet exNetFail exNetFail 0
  exact ⟨⟨by decide, by decide, by decide, by decide, by decide⟩,
    ⟨T.1.1, T.1.2⟩,
    ⟨T.2.1.1, T.2.1.2 exServer (by decide) (by decide)⟩,
    ⟨T.2.2.1.1, T.2.2.1.2 (by decide)⟩,
    ⟨T.2.2.2.1.1, T.2.2.2.1.2 (by decide) exServer (by decide) (by decide)⟩,
    ⟨T.2.2.2.2.1, T.2.2.2.2.2 (by decide) exServer (by decide) (by decide)⟩⟩

/-- C9 counterexample: the usage operation (`GET /api/server-stats`) called
with an EMPTY credential by a user with no servers succeeds with an empty
list — it does not fail with a missing-credential error, because the
empty-server-list early return precedes the credential check. -/
theorem empty_credential_stats_succeeds :
    serverStatsRoute "http://panel" emptyStorage 7 "" exStatsNet 0 =
      ([], .ok [], emptyStorage) := by
  rfl

end Nexora
